import Mathlib

/-
  Shallow embedding of webchaind src/core/execution.go: the call/create
  dispatcher of the virtual machine (Call, CallCode, DelegateCall,
  StaticCall, Create, Transfer).

  External collaborators (account database, hashing, address derivation,
  frame gas accounting, the interpreter) live outside this file's source
  and are modelled from the spec at their interface boundary; the
  dispatcher logic itself is transcribed from execution.go line by line.
  Dispatcher-level mutations and bookkeeping calls are additionally
  recorded in an event trace so that statements such as "ReturnGas is not
  invoked" or "exactly one zero-amount balance addition" are expressible.
-/

namespace Webchain

/-- Addresses, modelled as naturals (common.Address). The zero address
common.Address\x7b\x7d is 0. -/
abbrev Address := Nat

/-- Modelled from the spec: code hashes. `zero` stands for the all-zero
common.Hash returned for a non-existent account; `keccak c` stands for the
Keccak-256 hash of byte sequence c. Keccak is idealised as injective and
never equal to the zero hash, which the two constructors give for free. -/
inductive Hash where
  | zero : Hash
  | keccak : List Nat → Hash
deriving DecidableEq

/-- emptyCodeHash = crypto.Keccak256Hash(nil) (execution.go line 32). -/
def emptyCodeHash : Hash := Hash.keccak []

/-- Modelled from the spec: an account of the state database — balance,
nonce and code (storage is out of scope for this core). -/
structure Account where
  balance : Nat
  nonce : Nat
  code : List Nat
deriving DecidableEq

/-- Modelled from the spec: state.StartingNonce, the rule-set-defined
starting nonce of fresh accounts. -/
def StartingNonce : Nat := 0

/-- Modelled from the spec: the account database. `none` means the
account does not exist. -/
structure DB where
  accounts : Address → Option Account

/-- Point update of the database. -/
def DB.set (db : DB) (a : Address) (acc : Account) : DB :=
  ⟨Function.update db.accounts a (some acc)⟩

/-- Modelled from the spec: Exist(addr). -/
def DB.Exist (db : DB) (a : Address) : Bool :=
  (db.accounts a).isSome

/-- Modelled from the spec: GetBalance, 0 for a non-existent account. -/
def DB.GetBalance (db : DB) (a : Address) : Nat :=
  (db.accounts a).elim 0 Account.balance

/-- Modelled from the spec: GetNonce; the classic-geth state database
returns StartingNonce for a non-existent account. -/
def DB.GetNonce (db : DB) (a : Address) : Nat :=
  (db.accounts a).elim StartingNonce Account.nonce

/-- Modelled from the spec: GetCode, empty for a non-existent account. -/
def DB.GetCode (db : DB) (a : Address) : List Nat :=
  (db.accounts a).elim [] Account.code

/-- Modelled from the spec: GetCodeHash — the zero hash for a
non-existent account, the Keccak hash of the stored code otherwise. -/
def DB.GetCodeHash (db : DB) (a : Address) : Hash :=
  (db.accounts a).elim Hash.zero (fun acc => Hash.keccak acc.code)

/-- The account to mutate through a write: the existing one, or a fresh
empty account (get-or-new semantics of the state database). -/
def DB.getOrNew (db : DB) (a : Address) : Account :=
  (db.accounts a).getD ⟨0, StartingNonce, []⟩

/-- Generic mutator: apply f to the (possibly fresh) account at a. -/
def DB.modifyAcc (db : DB) (a : Address) (f : Account → Account) : DB :=
  db.set a (f (db.getOrNew a))

/-- Modelled from the spec: AddBalance. -/
def DB.AddBalance (db : DB) (a : Address) (amt : Nat) : DB :=
  db.modifyAcc a (fun acc => { acc with balance := acc.balance + amt })

/-- Modelled from the spec: SubBalance (guarded by CanTransfer at every
dispatcher use, so natural subtraction loses nothing). -/
def DB.SubBalance (db : DB) (a : Address) (amt : Nat) : DB :=
  db.modifyAcc a (fun acc => { acc with balance := acc.balance - amt })

/-- Modelled from the spec: SetNonce. -/
def DB.SetNonce (db : DB) (a : Address) (n : Nat) : DB :=
  db.modifyAcc a (fun acc => { acc with nonce := n })

/-- Modelled from the spec: SetCode. -/
def DB.SetCode (db : DB) (a : Address) (c : List Nat) : DB :=
  db.modifyAcc a (fun acc => { acc with code := c })

/-- Modelled from the spec: CreateAccount — a fresh account at a with the
starting nonce and no code; the previous balance is carried over (classic
geth CreateAccount semantics). -/
def DB.CreateAccount (db : DB) (a : Address) : DB :=
  db.modifyAcc a (fun acc => ⟨acc.balance, StartingNonce, []⟩)

/-- Modelled from the spec: the funds-sufficiency predicate
env.CanTransfer(addr, value). -/
def DB.CanTransfer (db : DB) (a : Address) (value : Nat) : Bool :=
  decide (value ≤ db.GetBalance a)

/-- The typed errors of the dispatcher and the interpreter.
vmOther n stands for any interpreter failure other than the
distinguished vm.ErrRevert and vm.CodeStoreOutOfGasError values. -/
inductive Err where
  | callCreateDepth : Err
  | valueTransfer : Nat → Nat → Err
  | contractAddressCollision : Err
  | maxCodeSizeExceeded : Err
  | codeStoreOutOfGas : Err
  | revert : Err
  | vmOther : Nat → Err
deriving DecidableEq

/-- ContractRef: the caller identity — its address and (for delegate
frames) the value it forwards; ReturnGas is recorded as an event. -/
structure ContractRef where
  address : Address
  value : Nat
deriving DecidableEq

/-- The execution Frame (vm.Contract): caller, self, value, remaining
gas, the code to run with its hash and origin address, and the delegate
flag. Gas price is omitted: it only rides along ReturnGas and no claim
concerns it. -/
structure Contract where
  callerAddr : Address
  self : Address
  value : Nat
  gas : Nat
  codeAddr : Option Address
  codeHash : Hash
  code : List Nat
  isDelegate : Bool
deriving DecidableEq

/-- Modelled from the spec: vm.Contract.UseGas — charge amt against the
remaining gas if affordable; gas consumption is checked, never negative.
Returns (ok, remaining gas). -/
def UseGas (gasLeft amt : Nat) : Bool × Nat :=
  if amt ≤ gasLeft then (true, gasLeft - amt) else (false, gasLeft)

/-- Dispatcher-level observable events, in program order. The
interpreter's own internal actions are not part of the trace. -/
inductive Event where
  | returnGas : Nat → Event
  | snapshot : Event
  | revertToSnapshot : Event
  | createAccount : Address → Event
  | addBalance : Address → Nat → Event
  | subBalance : Address → Nat → Event
  | setNonce : Address → Nat → Event
  | setCode : Address → List Nat → Event
  | vmRunEv : Contract → Option (List Nat) → Bool → Event
deriving DecidableEq

/-- What env.Vm().Run returns: output bytes (none = Go nil slice), an
optional error, the Frame's remaining gas after the run, and the account
database after the run (the interpreter mutates state directly,
including through nested dispatcher calls). -/
structure VmOut where
  ret : Option (List Nat)
  err : Option Err
  gas : Nat
  db : DB

/-- The environment (vm.Environment): recursion depth, the two rule-set
queries at the current block number folded to booleans (IsHomestead and
IsHardfork2 of a fixed RuleSet at a fixed BlockNumber), the two
precompiled-contract address sets, and the interpreter. -/
structure Env where
  depth : Nat
  isHomestead : Bool
  isHardfork2 : Bool
  precompiledPreAtlantis : List Address
  precompiledAtlantis : List Address
  vmRun : Contract → Option (List Nat) → Bool → DB → VmOut

/-- callCreateDepthMax = 1024 (execution.go line 34). -/
def callCreateDepthMax : Nat := 1024

/-- maxCodeSize = 24576 (execution.go line 37). -/
def maxCodeSize : Nat := 24576

/-- params.CreateDataGas = 200: per-byte gas cost of storing created
contract code. -/
def CreateDataGas : Nat := 200

/-- len(ret) for a possibly-nil byte slice. -/
def retLen : Option (List Nat) → Nat
  | none => 0
  | some l => l.length

/-- Transfer (execution.go lines 310-313): unconditional SubBalance on
the sender and AddBalance on the recipient, with the two events. -/
def Transfer (db : DB) (sender recipient : Address) (amount : Nat) :
    DB × List Event :=
  ((db.SubBalance sender amount).AddBalance recipient amount,
   [Event.subBalance sender amount, Event.addBalance recipient amount])

/-- Message-call result: output bytes, error, final database, the
Frame's remaining gas at exit (none when no Frame was built), and the
event trace. -/
structure MsgResult where
  ret : Option (List Nat)
  err : Option Err
  db : DB
  frameGas : Option Nat
  events : List Event

/-- The shared error tail of the four call variants (execution.go lines
93-99, 130-135, 170-175, 215-221): on any interpreter error revert to
the snapshot, and unless the error is vm.ErrRevert consume all remaining
Frame gas via contract.UseGas(contract.Gas). -/
def vmFinish (snapshot : DB) (out : VmOut) (events : List Event) : MsgResult :=
  match out.err with
  | some e =>
      if e ≠ Err.revert then
        ⟨out.ret, some e, snapshot, some (UseGas out.gas out.gas).2,
         events ++ [Event.revertToSnapshot]⟩
      else
        ⟨out.ret, some e, snapshot, some out.gas,
         events ++ [Event.revertToSnapshot]⟩
  | none => ⟨out.ret, none, out.db, some out.gas, events⟩

/-- Call (execution.go lines 47-100): depth and funds guards, snapshot,
absent-target handling with the post-hardfork-2 no-op special case,
value transfer, Frame bound to the target's live code, mutating
interpreter run, shared error tail. -/
def Call (env : Env) (caller : ContractRef) (addr : Address)
    (input : Option (List Nat)) (gas value : Nat) (db : DB) : MsgResult :=
  if env.depth > callCreateDepthMax then
    ⟨none, some Err.callCreateDepth, db, none, [Event.returnGas gas]⟩
  else if db.CanTransfer caller.address value = false then
    ⟨none, some (Err.valueTransfer value (db.GetBalance caller.address)),
     db, none, [Event.returnGas gas]⟩
  else
    let snapshot := db
    let isHardfork2 := env.isHardfork2
    if db.Exist addr = false then
      let precompiles :=
        if isHardfork2 then env.precompiledAtlantis
        else env.precompiledPreAtlantis
      if addr ∉ precompiles ∧ isHardfork2 = true ∧ value = 0 then
        ⟨none, none, db, none, [Event.snapshot, Event.returnGas gas]⟩
      else
        callBody env caller addr input gas value snapshot (db.CreateAccount addr)
          [Event.snapshot, Event.createAccount addr]
    else
      callBody env caller addr input gas value snapshot db [Event.snapshot]
where
  /-- The common tail of Call after target resolution: transfer, Frame
  construction with the target's code, interpreter run, error tail. -/
  callBody (env : Env) (caller : ContractRef) (addr : Address)
      (input : Option (List Nat)) (gas value : Nat) (snapshot db : DB)
      (events : List Event) : MsgResult :=
    let tr := Transfer db caller.address addr value
    let db1 := tr.1
    let contract : Contract :=
      ⟨caller.address, addr, value, gas, some addr,
       db1.GetCodeHash addr, db1.GetCode addr, false⟩
    let out := env.vmRun contract input false db1
    vmFinish snapshot out
      (events ++ tr.2 ++ [Event.vmRunEv contract input false])

/-- CallCode (execution.go lines 103-137): like Call but the Frame's
recipient is the caller's own account, there is no absent-target special
case and no transfer is performed. -/
def CallCode (env : Env) (caller : ContractRef) (addr : Address)
    (input : Option (List Nat)) (gas value : Nat) (db : DB) : MsgResult :=
  if env.depth > callCreateDepthMax then
    ⟨none, some Err.callCreateDepth, db, none, [Event.returnGas gas]⟩
  else if db.CanTransfer caller.address value = false then
    ⟨none, some (Err.valueTransfer value (db.GetBalance caller.address)),
     db, none, [Event.returnGas gas]⟩
  else
    let snapshot := db
    let contract : Contract :=
      ⟨caller.address, caller.address, value, gas, some addr,
       db.GetCodeHash addr, db.GetCode addr, false⟩
    let out := env.vmRun contract input false db
    vmFinish snapshot out
      [Event.snapshot, Event.vmRunEv contract input false]

/-- DelegateCall (execution.go lines 140-177): depth guard only,
create-if-absent on the caller's own account, delegate Frame forwarding
the parent's value, mutating run, shared error tail. -/
def DelegateCall (env : Env) (caller : ContractRef) (addr : Address)
    (input : Option (List Nat)) (gas : Nat) (db : DB) : MsgResult :=
  if env.depth > callCreateDepthMax then
    ⟨none, some Err.callCreateDepth, db, none, [Event.returnGas gas]⟩
  else
    let snapshot := db
    let resolved :=
      if db.Exist caller.address = false then
        (db.CreateAccount caller.address,
         [Event.snapshot, Event.createAccount caller.address])
      else (db, [Event.snapshot])
    let db1 := resolved.1
    let contract : Contract :=
      ⟨caller.address, caller.address, caller.value, gas, some addr,
       db1.GetCodeHash addr, db1.GetCode addr, true⟩
    let out := env.vmRun contract input false db1
    vmFinish snapshot out
      (resolved.2 ++ [Event.vmRunEv contract input false])

/-- StaticCall (execution.go lines 180-222): depth guard,
create-if-absent on the target, zero-value Frame, a zero-amount
AddBalance touch on the target, read-only interpreter run, shared error
tail. -/
def StaticCall (env : Env) (caller : ContractRef) (addr : Address)
    (input : Option (List Nat)) (gas : Nat) (db : DB) : MsgResult :=
  if env.depth > callCreateDepthMax then
    ⟨none, some Err.callCreateDepth, db, none, [Event.returnGas gas]⟩
  else
    let snapshot := db
    let resolved :=
      if db.Exist addr = false then
        (db.CreateAccount addr, [Event.snapshot, Event.createAccount addr])
      else (db, [Event.snapshot])
    let db1 := resolved.1
    let contract : Contract :=
      ⟨caller.address, addr, 0, gas, some addr,
       db1.GetCodeHash addr, db1.GetCode addr, false⟩
    let db2 := db1.AddBalance addr 0
    let out := env.vmRun contract input true db2
    vmFinish snapshot out
      (resolved.2 ++ [Event.addBalance addr 0, Event.vmRunEv contract input true])

/-- Modelled from the spec: crypto.CreateAddress — address derivation
for created contracts is a pure function of (creator address, creator
nonce); idealised as injective and never the zero address, and (as
collision resistance gives with overwhelming probability) never equal
to the creator's own address. -/
def createAddress (a : Address) (n : Nat) : Address :=
  Nat.pair a n + 1

/-- Contract-creation result: output, derived address (the zero address
0 on guard and collision failures), error, final database, Frame gas at
exit, event trace. -/
structure CreateResult where
  ret : Option (List Nat)
  address : Address
  err : Option Err
  db : DB
  frameGas : Option Nat
  events : List Event

/-- The post-interpreter tail of Create (execution.go lines 271-306):
code-size check under hardfork 2, code-storage gas charge and SetCode,
the revert decision with its Homestead/CodeStoreOutOfGas asymmetry, the
late MaxCodeSizeExceeded report, and the final output/nil decision. -/
def createFinish (env : Env) (snapshot : DB) (address : Address)
    (out : VmOut) (events : List Event) : CreateResult :=
  let maxCodeSizeExceeded :=
    decide (retLen out.ret > maxCodeSize) && env.isHardfork2
  let stored :=
    if out.err = none ∧ maxCodeSizeExceeded = false then
      let dataGas := retLen out.ret * CreateDataGas
      let charged := UseGas out.gas dataGas
      if charged.1 then
        (none, charged.2, out.db.SetCode address (out.ret.getD []),
         events ++ [Event.setCode address (out.ret.getD [])])
      else
        (some Err.codeStoreOutOfGas, charged.2, out.db, events)
    else (out.err, out.gas, out.db, events)
  let err1 := stored.1
  let gas1 := stored.2.1
  let dbA := stored.2.2.1
  let evA := stored.2.2.2
  let reverted :=
    if maxCodeSizeExceeded = true ∨
        (err1 ≠ none ∧ (env.isHomestead = true ∨ err1 ≠ some Err.codeStoreOutOfGas)) then
      ((if err1 ≠ some Err.revert then (UseGas gas1 gas1).2 else gas1),
       snapshot, evA ++ [Event.revertToSnapshot])
    else (gas1, dbA, evA)
  let err2 :=
    if maxCodeSizeExceeded = true ∧ err1 = none then some Err.maxCodeSizeExceeded
    else err1
  if err2 ≠ none ∧ err2 ≠ some Err.revert then
    ⟨none, address, err2, reverted.2.1, some reverted.1, reverted.2.2⟩
  else
    ⟨out.ret, address, err2, reverted.2.1, some reverted.1, reverted.2.2⟩

/-- Create (execution.go lines 225-307): depth and funds guards, nonce
read and increment, address derivation, collision check, snapshot,
account creation, hardfork-2 nonce bump of the new account, value
transfer, init-code Frame, mutating interpreter run with nil input,
post-execution tail. -/
def Create (env : Env) (caller : ContractRef) (code : List Nat)
    (gas value : Nat) (db : DB) : CreateResult :=
  if env.depth > callCreateDepthMax then
    ⟨none, 0, some Err.callCreateDepth, db, none, [Event.returnGas gas]⟩
  else if db.CanTransfer caller.address value = false then
    ⟨none, 0, some (Err.valueTransfer value (db.GetBalance caller.address)),
     db, none, [Event.returnGas gas]⟩
  else
    let nonce := db.GetNonce caller.address
    let db1 := db.SetNonce caller.address (nonce + 1)
    let address := createAddress caller.address nonce
    let contractHash := db1.GetCodeHash address
    if db1.GetNonce address ≠ StartingNonce ∨
        (contractHash ≠ Hash.zero ∧ contractHash ≠ emptyCodeHash) then
      ⟨none, 0, some Err.contractAddressCollision, db1, none,
       [Event.setNonce caller.address (nonce + 1)]⟩
    else
      let snapshot := db1
      let db2 := db1.CreateAccount address
      let bumped :=
        if env.isHardfork2 then
          (db2.SetNonce address (StartingNonce + 1),
           [Event.setNonce address (StartingNonce + 1)])
        else (db2, [])
      let tr := Transfer bumped.1 caller.address address value
      let contract : Contract :=
        ⟨caller.address, address, value, gas, none, Hash.keccak code, code, false⟩
      let out := env.vmRun contract none false tr.1
      createFinish env snapshot address out
        ([Event.setNonce caller.address (nonce + 1), Event.snapshot,
          Event.createAccount address] ++ bumped.2 ++ tr.2 ++
          [Event.vmRunEv contract none false])

/-- The database state of Create just before the interpreter runs:
caller nonce incremented, target account created, target nonce bumped
under hardfork 2, value transferred in. -/
def createSetupDB (env : Env) (caller : ContractRef) (value : Nat) (db : DB) : DB :=
  let nonce := db.GetNonce caller.address
  let address := createAddress caller.address nonce
  let db1 := db.SetNonce caller.address (nonce + 1)
  let db2 := db1.CreateAccount address
  let db3 := if env.isHardfork2 then db2.SetNonce address (StartingNonce + 1) else db2
  (db3.SubBalance caller.address value).AddBalance address value

/-- The init-code Frame of Create. -/
def createInitContract (caller : ContractRef) (code : List Nat)
    (gas value : Nat) (db : DB) : Contract :=
  ⟨caller.address, createAddress caller.address (db.GetNonce caller.address),
   value, gas, none, Hash.keccak code, code, false⟩

/-- The event trace of Create up to and including the interpreter run. -/
def createSetupEvents (env : Env) (caller : ContractRef) (code : List Nat)
    (gas value : Nat) (db : DB) : List Event :=
  let nonce := db.GetNonce caller.address
  let address := createAddress caller.address nonce
  [Event.setNonce caller.address (nonce + 1), Event.snapshot,
   Event.createAccount address] ++
  (if env.isHardfork2 then [Event.setNonce address (StartingNonce + 1)] else []) ++
  [Event.subBalance caller.address value, Event.addBalance address value,
   Event.vmRunEv (createInitContract caller code gas value db) none false]

/-- Target resolution of StaticCall: the database and events after the
create-if-absent step. -/
def resolveOrCreate (db : DB) (addr : Address) : DB × List Event :=
  if db.Exist addr = false then
    (db.CreateAccount addr, [Event.snapshot, Event.createAccount addr])
  else (db, [Event.snapshot])

/-- The zero-value read-only Frame of StaticCall. -/
def staticContract (caller : ContractRef) (addr : Address) (gas : Nat)
    (db : DB) : Contract :=
  ⟨caller.address, addr, 0, gas, some addr,
   (resolveOrCreate db addr).1.GetCodeHash addr,
   (resolveOrCreate db addr).1.GetCode addr, false⟩

/-
  Concrete fixtures for witness theorems: a database whose only account
  is the caller at address 1 with balance 100, nonce 0 and no code, and
  environments differing in depth, fork flags and interpreter outcome.
  The derived creation address of (1, nonce 0) is 3.
-/

/-- Witness database: the caller account at address 1. -/
def dbW : DB := ⟨fun a => if a = 1 then some ⟨100, 0, []⟩ else none⟩

/-- Witness database with an occupied creation target: nonce 7 at the
derived address 3. -/
def dbColW : DB :=
  ⟨fun a =>
    if a = 1 then some ⟨100, 0, []⟩
    else if a = 3 then some ⟨0, 7, []⟩ else none⟩

/-- Witness caller: address 1, zero forwarded value. -/
def callerW : ContractRef := ⟨1, 0⟩

/-- Witness environment: depth 0, no forks, interpreter succeeds with no
output and leaves the database unchanged. -/
def envOkW : Env := ⟨0, false, false, [], [], fun _ _ _ d => ⟨none, none, 0, d⟩⟩

/-- Witness environment: depth 2000, over the call-depth limit. -/
def envDeepW : Env := ⟨2000, false, false, [], [], fun _ _ _ d => ⟨none, none, 0, d⟩⟩

/-- Witness environment: both forks active, interpreter untouched
database, for the Call no-op case. -/
def envNoopW : Env := ⟨0, true, true, [], [], fun _ _ _ d => ⟨none, none, 0, d⟩⟩

/-- Witness environment: interpreter fails with a generic error. -/
def envErrW : Env :=
  ⟨0, true, false, [], [], fun _ _ _ _ => ⟨some [7], some (Err.vmOther 0), 5, dbW⟩⟩

/-- Witness environment: interpreter signals an explicit revert. -/
def envRevW : Env :=
  ⟨0, true, true, [], [], fun _ _ _ _ => ⟨some [9], some Err.revert, 5, dbW⟩⟩

/-- Witness environment: interpreter succeeds with 3 bytes of code but
leaves no gas to store them. -/
def envOogW : Env :=
  ⟨0, true, true, [], [], fun _ _ _ _ => ⟨some [1, 2, 3], none, 0, dbW⟩⟩

/-- Witness environment: interpreter succeeds with 3 bytes of code and
ample gas. -/
def envStoreW : Env :=
  ⟨0, true, true, [], [], fun _ _ _ _ => ⟨some [1, 2, 3], none, 1000, dbW⟩⟩

/-- Witness environment: interpreter is the identity on the database. -/
def envIdW : Env := ⟨0, true, true, [], [], fun _ _ _ d => ⟨none, none, 5, d⟩⟩

/-- Point lookup after a point mutation at the same address. -/
theorem DB.accounts_modify_same (db : DB) (a : Address) (f : Account → Account) :
    (db.modifyAcc a f).accounts a = some (f (db.getOrNew a)) := by
  simp [DB.modifyAcc, DB.set, Function.update_same]

/-- Point lookup after a point mutation at a different address. -/
theorem DB.accounts_modify_ne (db : DB) {a b : Address} (f : Account → Account)
    (h : b ≠ a) : (db.modifyAcc a f).accounts b = db.accounts b := by
  simp [DB.modifyAcc, DB.set, Function.update_noteq h]

/-- AddBalance never changes any nonce. -/
theorem DB.getNonce_addBalance (db : DB) (a b : Address) (amt : Nat) :
    (db.AddBalance a amt).GetNonce b = db.GetNonce b := by
  by_cases h : b = a
  · subst h
    simp [DB.AddBalance, DB.GetNonce, DB.accounts_modify_same, DB.getOrNew]
    cases db.accounts b <;> simp
  · simp [DB.AddBalance, DB.GetNonce, DB.accounts_modify_ne _ _ h]

/-- SubBalance never changes any nonce. -/
theorem DB.getNonce_subBalance (db : DB) (a b : Address) (amt : Nat) :
    (db.SubBalance a amt).GetNonce b = db.GetNonce b := by
  by_cases h : b = a
  · subst h
    simp [DB.SubBalance, DB.GetNonce, DB.accounts_modify_same, DB.getOrNew]
    cases db.accounts b <;> simp
  · simp [DB.SubBalance, DB.GetNonce, DB.accounts_modify_ne _ _ h]

/-- SetCode never changes any nonce. -/
theorem DB.getNonce_setCode (db : DB) (a b : Address) (c : List Nat) :
    (db.SetCode a c).GetNonce b = db.GetNonce b := by
  by_cases h : b = a
  · subst h
    simp [DB.SetCode, DB.GetNonce, DB.accounts_modify_same, DB.getOrNew]
    cases db.accounts b <;> simp
  · simp [DB.SetCode, DB.GetNonce, DB.accounts_modify_ne _ _ h]

/-- SetNonce at a sets the nonce of a. -/
theorem DB.getNonce_setNonce_same (db : DB) (a : Address) (n : Nat) :
    (db.SetNonce a n).GetNonce a = n := by
  simp [DB.SetNonce, DB.GetNonce, DB.accounts_modify_same]

/-- SetNonce does not change the nonce of other addresses. -/
theorem DB.getNonce_setNonce_ne (db : DB) {a b : Address} (n : Nat) (h : b ≠ a) :
    (db.SetNonce a n).GetNonce b = db.GetNonce b := by
  simp [DB.SetNonce, DB.GetNonce, DB.accounts_modify_ne _ _ h]

/-- CreateAccount does not change the nonce of other addresses. -/
theorem DB.getNonce_createAccount_ne (db : DB) {a b : Address} (h : b ≠ a) :
    (db.CreateAccount a).GetNonce b = db.GetNonce b := by
  simp [DB.CreateAccount, DB.GetNonce, DB.accounts_modify_ne _ _ h]

/-- SetNonce never changes any balance. -/
theorem DB.getBalance_setNonce (db : DB) (a b : Address) (n : Nat) :
    (db.SetNonce a n).GetBalance b = db.GetBalance b := by
  by_cases h : b = a
  · subst h
    simp [DB.SetNonce, DB.GetBalance, DB.accounts_modify_same, DB.getOrNew]
    cases db.accounts b <;> simp
  · simp [DB.SetNonce, DB.GetBalance, DB.accounts_modify_ne _ _ h]

/-- SetNonce does not change the code hash of other addresses. -/
theorem DB.getCodeHash_setNonce_ne (db : DB) {a b : Address} (n : Nat) (h : b ≠ a) :
    (db.SetNonce a n).GetCodeHash b = db.GetCodeHash b := by
  simp [DB.SetNonce, DB.GetCodeHash, DB.accounts_modify_ne _ _ h]

/-- SetCode at a stores exactly the given code at a. -/
theorem DB.getCode_setCode_same (db : DB) (a : Address) (c : List Nat) :
    (db.SetCode a c).GetCode a = c := by
  simp [DB.SetCode, DB.GetCode, DB.accounts_modify_same]

/-- The derived contract address is strictly above the creator address,
hence distinct from it and from the zero address. -/
theorem lt_createAddress (a n : Nat) : a < createAddress a n :=
  Nat.lt_succ_of_le (Nat.left_le_pair a n)

/-- The derived contract address never equals the creator address. -/
theorem createAddress_ne (a n : Nat) : createAddress a n ≠ a :=
  Nat.ne_of_gt (lt_createAddress a n)

/-- vmFinish on an interpreter error other than vm.ErrRevert: revert to
the snapshot and consume all remaining Frame gas. -/
theorem vmFinish_err (snapshot : DB) (out : VmOut) (events : List Event)
    (e : Err) (h1 : out.err = some e) (h2 : e ≠ Err.revert) :
    vmFinish snapshot out events =
      ⟨out.ret, some e, snapshot, some 0, events ++ [Event.revertToSnapshot]⟩ := by
  simp [vmFinish, h1, h2, UseGas]

/-- vmFinish on vm.ErrRevert: revert to the snapshot but keep the
interpreter's remaining gas and output. -/
theorem vmFinish_revert (snapshot : DB) (out : VmOut) (events : List Event)
    (h1 : out.err = some Err.revert) :
    vmFinish snapshot out events =
      ⟨out.ret, some Err.revert, snapshot, some out.gas,
       events ++ [Event.revertToSnapshot]⟩ := by
  simp [vmFinish, h1]

/-- vmFinish with no interpreter error: keep the interpreter's database,
gas and output. -/
theorem vmFinish_ok (snapshot : DB) (out : VmOut) (events : List Event)
    (h : out.err = none) :
    vmFinish snapshot out events =
      ⟨out.ret, none, out.db, some out.gas, events⟩ := by
  simp [vmFinish, h]

/-- Events appended by vmFinish never remove earlier events. -/
theorem vmFinish_events_mono (s : DB) (out : VmOut) (ev : List Event)
    (x : Event) (h : x ∈ ev) : x ∈ (vmFinish s out ev).events := by
  unfold vmFinish
  cases hout : out.err with
  | none => simpa using h
  | some e => by_cases he : e = Err.revert <;> simp [he, h]

/-- The events of vmFinish: either the incoming trace or the incoming
trace followed by the revert event. -/
theorem vmFinish_events_cases (s : DB) (out : VmOut) (ev : List Event) :
    (vmFinish s out ev).events = ev ∨
    (vmFinish s out ev).events = ev ++ [Event.revertToSnapshot] := by
  unfold vmFinish
  cases hout : out.err with
  | none => left; rfl
  | some e => by_cases he : e = Err.revert <;> simp [he]

/-- The observable outcome of vmFinish on an interpreter error: snapshot
restored, remaining gas consumed unless the error is the explicit revert
signal, output preserved on revert, revert event recorded. -/
theorem vmFinish_spec (s : DB) (out : VmOut) (ev : List Event) (e : Err)
    (h : out.err = some e) :
    (vmFinish s out ev).db = s ∧
    (e ≠ Err.revert → (vmFinish s out ev).frameGas = some 0) ∧
    (e = Err.revert →
      (vmFinish s out ev).frameGas = some out.gas ∧
      (vmFinish s out ev).ret = out.ret) ∧
    Event.revertToSnapshot ∈ (vmFinish s out ev).events := by
  by_cases hr : e = Err.revert
  · subst hr
    rw [vmFinish_revert s out ev h]
    simp
  · rw [vmFinish_err s out ev e h hr]
    simp [hr]

/-- Create in the collision case (execution.go lines 244-248): the nonce
increment stands, no snapshot was taken, no gas is returned, the zero
address and the collision error are reported. -/
theorem Create_collision_eq (env : Env) (caller : ContractRef) (code : List Nat)
    (gas value : Nat) (db : DB)
    (hd : ¬ env.depth > callCreateDepthMax)
    (hf : db.CanTransfer caller.address value = true)
    (hcol : db.GetNonce (createAddress caller.address (db.GetNonce caller.address)) ≠
              StartingNonce ∨
            (db.GetCodeHash (createAddress caller.address (db.GetNonce caller.address)) ≠
               Hash.zero ∧
             db.GetCodeHash (createAddress caller.address (db.GetNonce caller.address)) ≠
               emptyCodeHash)) :
    Create env caller code gas value db =
      ⟨none, 0, some Err.contractAddressCollision,
       db.SetNonce caller.address (db.GetNonce caller.address + 1), none,
       [Event.setNonce caller.address (db.GetNonce caller.address + 1)]⟩ := by
  have hne : createAddress caller.address (db.GetNonce caller.address) ≠
      caller.address := createAddress_ne _ _
  have h1 : (db.SetNonce caller.address (db.GetNonce caller.address + 1)).GetNonce
        (createAddress caller.address (db.GetNonce caller.address)) =
      db.GetNonce (createAddress caller.address (db.GetNonce caller.address)) :=
    DB.getNonce_setNonce_ne db _ hne
  have h2 : (db.SetNonce caller.address (db.GetNonce caller.address + 1)).GetCodeHash
        (createAddress caller.address (db.GetNonce caller.address)) =
      db.GetCodeHash (createAddress caller.address (db.GetNonce caller.address)) :=
    DB.getCodeHash_setNonce_ne db _ hne
  simp only [Create, h1, h2]
  rw [if_neg hd, if_neg (by simp [hf]), if_pos hcol]

/-- Create past its guards and collision check equals createFinish of
the interpreter run on the set-up state. -/
theorem Create_run (env : Env) (caller : ContractRef) (code : List Nat)
    (gas value : Nat) (db : DB)
    (hd : ¬ env.depth > callCreateDepthMax)
    (hf : db.CanTransfer caller.address value = true)
    (hnc : db.GetNonce (createAddress caller.address (db.GetNonce caller.address)) =
             StartingNonce ∧
           (db.GetCodeHash (createAddress caller.address (db.GetNonce caller.address)) =
              Hash.zero ∨
            db.GetCodeHash (createAddress caller.address (db.GetNonce caller.address)) =
              emptyCodeHash)) :
    Create env caller code gas value db =
      createFinish env (db.SetNonce caller.address (db.GetNonce caller.address + 1))
        (createAddress caller.address (db.GetNonce caller.address))
        (env.vmRun (createInitContract caller code gas value db) none false
          (createSetupDB env caller value db))
        (createSetupEvents env caller code gas value db) := by
  have hne : createAddress caller.address (db.GetNonce caller.address) ≠
      caller.address := createAddress_ne _ _
  have h1 : (db.SetNonce caller.address (db.GetNonce caller.address + 1)).GetNonce
        (createAddress caller.address (db.GetNonce caller.address)) =
      db.GetNonce (createAddress caller.address (db.GetNonce caller.address)) :=
    DB.getNonce_setNonce_ne db _ hne
  have h2 : (db.SetNonce caller.address (db.GetNonce caller.address + 1)).GetCodeHash
        (createAddress caller.address (db.GetNonce caller.address)) =
      db.GetCodeHash (createAddress caller.address (db.GetNonce caller.address)) :=
    DB.getCodeHash_setNonce_ne db _ hne
  have hnc2 : ¬ (db.GetNonce (createAddress caller.address (db.GetNonce caller.address)) ≠
        StartingNonce ∨
      (db.GetCodeHash (createAddress caller.address (db.GetNonce caller.address)) ≠
         Hash.zero ∧
       db.GetCodeHash (createAddress caller.address (db.GetNonce caller.address)) ≠
         emptyCodeHash)) := by
    rintro (hba | ⟨hz, he⟩)
    · exact hba hnc.1
    · rcases hnc.2 with h | h
      · exact hz h
      · exact he h
  simp only [Create, h1, h2]
  rw [if_neg hd, if_neg (by simp [hf]), if_neg hnc2]
  cases hh : env.isHardfork2 <;>
    simp [createSetupDB, createSetupEvents, createInitContract, Transfer, hh]

/-- Create_run with the interpreter's outcome fixed. -/
theorem Create_vmconst (env : Env) (caller : ContractRef) (code : List Nat)
    (gas value : Nat) (db : DB) (r : Option (List Nat)) (e : Option Err)
    (g : Nat) (db2 : DB)
    (hd : ¬ env.depth > callCreateDepthMax)
    (hf : db.CanTransfer caller.address value = true)
    (hnc : db.GetNonce (createAddress caller.address (db.GetNonce caller.address)) =
             StartingNonce ∧
           (db.GetCodeHash (createAddress caller.address (db.GetNonce caller.address)) =
              Hash.zero ∨
            db.GetCodeHash (createAddress caller.address (db.GetNonce caller.address)) =
              emptyCodeHash))
    (hvm : env.vmRun = fun _ _ _ _ => VmOut.mk r e g db2) :
    Create env caller code gas value db =
      createFinish env (db.SetNonce caller.address (db.GetNonce caller.address + 1))
        (createAddress caller.address (db.GetNonce caller.address))
        ⟨r, e, g, db2⟩ (createSetupEvents env caller code gas value db) := by
  rw [Create_run env caller code gas value db hd hf hnc, hvm]

/-- createFinish, no interpreter error, size not exceeded, code charge
affordable: code persisted, no revert, gas charged. -/
theorem createFinish_store_ok (env : Env) (s : DB) (A : Address)
    (r : Option (List Nat)) (g : Nat) (db2 : DB) (ev : List Event)
    (hx : (decide (retLen r > maxCodeSize) && env.isHardfork2) = false)
    (hg : retLen r * CreateDataGas ≤ g) :
    createFinish env s A ⟨r, none, g, db2⟩ ev =
      ⟨r, A, none, db2.SetCode A (r.getD []),
       some (g - retLen r * CreateDataGas),
       ev ++ [Event.setCode A (r.getD [])]⟩ := by
  simp [createFinish, hx, UseGas, hg]

/-- createFinish, no interpreter error, size not exceeded, code charge
not affordable: CodeStoreOutOfGas; reverted (with all gas consumed)
exactly when Homestead is active. -/
theorem createFinish_store_oog (env : Env) (s : DB) (A : Address)
    (r : Option (List Nat)) (g : Nat) (db2 : DB) (ev : List Event)
    (hx : (decide (retLen r > maxCodeSize) && env.isHardfork2) = false)
    (hg : ¬ retLen r * CreateDataGas ≤ g) :
    createFinish env s A ⟨r, none, g, db2⟩ ev =
      if env.isHomestead then
        ⟨none, A, some Err.codeStoreOutOfGas, s, some 0,
         ev ++ [Event.revertToSnapshot]⟩
      else
        ⟨none, A, some Err.codeStoreOutOfGas, db2, some g, ev⟩ := by
  cases hh : env.isHomestead <;>
    simp [createFinish, hx, UseGas, hg, hh, Nat.sub_self]

/-- createFinish, no interpreter error but size exceeded: revert, all
gas consumed, MaxCodeSizeExceeded reported. -/
theorem createFinish_exceeded (env : Env) (s : DB) (A : Address)
    (r : Option (List Nat)) (g : Nat) (db2 : DB) (ev : List Event)
    (hx : (decide (retLen r > maxCodeSize) && env.isHardfork2) = true) :
    createFinish env s A ⟨r, none, g, db2⟩ ev =
      ⟨none, A, some Err.maxCodeSizeExceeded, s, some 0,
       ev ++ [Event.revertToSnapshot]⟩ := by
  simp [createFinish, hx, UseGas, Nat.sub_self]

/-- createFinish on the explicit revert signal: state reverted, gas and
output preserved. -/
theorem createFinish_revert (env : Env) (s : DB) (A : Address)
    (r : Option (List Nat)) (g : Nat) (db2 : DB) (ev : List Event) :
    createFinish env s A ⟨r, some Err.revert, g, db2⟩ ev =
      ⟨r, A, some Err.revert, s, some g, ev ++ [Event.revertToSnapshot]⟩ := by
  simp [createFinish]

/-- createFinish on a non-revert interpreter error whose revert
condition holds: revert, all gas consumed, nil output. -/
theorem createFinish_err_rev (env : Env) (s : DB) (A : Address)
    (r : Option (List Nat)) (e : Err) (g : Nat) (db2 : DB) (ev : List Event)
    (he : e ≠ Err.revert)
    (hc : (decide (retLen r > maxCodeSize) && env.isHardfork2) = true ∨
          env.isHomestead = true ∨ e ≠ Err.codeStoreOutOfGas) :
    createFinish env s A ⟨r, some e, g, db2⟩ ev =
      ⟨none, A, some e, s, some 0, ev ++ [Event.revertToSnapshot]⟩ := by
  rcases hc with hc | hc | hc
  · simp [createFinish, hc, he, UseGas, Nat.sub_self]
  · by_cases hx : (decide (retLen r > maxCodeSize) && env.isHardfork2) = true <;>
      simp [createFinish, hc, he, hx, UseGas, Nat.sub_self]
  · by_cases hx : (decide (retLen r > maxCodeSize) && env.isHardfork2) = true <;>
      simp [createFinish, hc, he, hx, UseGas, Nat.sub_self]

/-- createFinish on the CodeStoreOutOfGas error before Homestead with
the size not exceeded: historically kept — no revert, gas kept. -/
theorem createFinish_oog_keep (env : Env) (s : DB) (A : Address)
    (r : Option (List Nat)) (g : Nat) (db2 : DB) (ev : List Event)
    (hx : (decide (retLen r > maxCodeSize) && env.isHardfork2) = false)
    (hh : env.isHomestead = false) :
    createFinish env s A ⟨r, some Err.codeStoreOutOfGas, g, db2⟩ ev =
      ⟨none, A, some Err.codeStoreOutOfGas, db2, some g, ev⟩ := by
  simp [createFinish, hx, hh]

/-- The address field of createFinish is always the derived address. -/
theorem createFinish_address (env : Env) (s : DB) (A : Address)
    (out : VmOut) (ev : List Event) :
    (createFinish env s A out ev).address = A := by
  simp only [createFinish]
  split_ifs <;> rfl

/-- The final database of createFinish is the snapshot, the
interpreter's database, or the latter with the code stored. -/
theorem createFinish_db_cases (env : Env) (s : DB) (A : Address)
    (out : VmOut) (ev : List Event) :
    (createFinish env s A out ev).db = s ∨
    (createFinish env s A out ev).db = out.db ∨
    (createFinish env s A out ev).db = out.db.SetCode A (out.ret.getD []) := by
  simp only [createFinish]
  split_ifs <;> simp

/-- The output of createFinish: nil on any error other than the revert
signal, the interpreter's output on the revert signal. -/
theorem createFinish_ret_spec (env : Env) (s : DB) (A : Address)
    (out : VmOut) (ev : List Event) :
    ((createFinish env s A out ev).err ≠ none →
     (createFinish env s A out ev).err ≠ some Err.revert →
     (createFinish env s A out ev).ret = none) ∧
    ((createFinish env s A out ev).err = some Err.revert →
     (createFinish env s A out ev).ret = out.ret) := by
  obtain ⟨r, e, g, db2⟩ := out
  cases e with
  | none =>
    by_cases hx : (decide (retLen r > maxCodeSize) && env.isHardfork2) = true
    · rw [createFinish_exceeded env s A r g db2 ev hx]
      simp
    · have hx2 : (decide (retLen r > maxCodeSize) && env.isHardfork2) = false := by
        simpa using hx
      by_cases hg : retLen r * CreateDataGas ≤ g
      · rw [createFinish_store_ok env s A r g db2 ev hx2 hg]
        simp
      · rw [createFinish_store_oog env s A r g db2 ev hx2 hg]
        cases hh : env.isHomestead <;> simp
  | some e =>
    by_cases he : e = Err.revert
    · subst he
      rw [createFinish_revert env s A r g db2 ev]
      simp
    · by_cases hc : (decide (retLen r > maxCodeSize) && env.isHardfork2) = true ∨
          env.isHomestead = true ∨ e ≠ Err.codeStoreOutOfGas
      · rw [createFinish_err_rev env s A r e g db2 ev he hc]
        simp [he]
      · push_neg at hc
        obtain ⟨hx, hh, he2⟩ := hc
        subst he2
        rw [createFinish_oog_keep env s A r g db2 ev (by simpa using hx)
          (by simpa using hh)]
        simp

/-- The revert event never occurs in the pre-run trace of Create. -/
theorem revert_not_mem_createSetupEvents (env : Env) (caller : ContractRef)
    (code : List Nat) (gas value : Nat) (db : DB) :
    Event.revertToSnapshot ∉ createSetupEvents env caller code gas value db := by
  cases hh : env.isHardfork2 <;> simp [createSetupEvents, hh]

/-- No setCode event occurs in the pre-run trace of Create. -/
theorem setCode_not_mem_createSetupEvents (env : Env) (caller : ContractRef)
    (code : List Nat) (gas value : Nat) (db : DB) (a : Address) (c : List Nat) :
    Event.setCode a c ∉ createSetupEvents env caller code gas value db := by
  cases hh : env.isHardfork2 <;> simp [createSetupEvents, hh]

/-- Counts of non-revert events pass through vmFinish unchanged. -/
theorem vmFinish_count (s : DB) (out : VmOut) (ev : List Event) (x : Event)
    (hx : x ≠ Event.revertToSnapshot) :
    ((vmFinish s out ev).events).count x = ev.count x := by
  rcases vmFinish_events_cases s out ev with h | h <;> rw [h]
  simp [List.count_append, List.count_singleton, hx]

/-- Every event of vmFinish is an incoming event or the revert event. -/
theorem vmFinish_mem (s : DB) (out : VmOut) (ev : List Event) (x : Event)
    (h : x ∈ (vmFinish s out ev).events) :
    x ∈ ev ∨ x = Event.revertToSnapshot := by
  rcases vmFinish_events_cases s out ev with he | he <;> rw [he] at h
  · exact Or.inl h
  · rcases List.mem_append.1 h with h | h
    · exact Or.inl h
    · right
      simpa using h

/-- StaticCall past the depth guard equals vmFinish of the read-only
interpreter run after target resolution and the zero-amount touch. -/
theorem StaticCall_run (env : Env) (caller : ContractRef) (addr : Address)
    (input : Option (List Nat)) (gas : Nat) (db : DB)
    (hd : ¬ env.depth > callCreateDepthMax) :
    StaticCall env caller addr input gas db =
      vmFinish db
        (env.vmRun (staticContract caller addr gas db) input true
          ((resolveOrCreate db addr).1.AddBalance addr 0))
        ((resolveOrCreate db addr).2 ++
         [Event.addBalance addr 0,
          Event.vmRunEv (staticContract caller addr gas db) input true]) := by
  by_cases hex : db.Exist addr = false <;>
    simp [StaticCall, staticContract, resolveOrCreate, hd, hex]

/-- The resolution events of StaticCall in the two existence cases. -/
theorem resolveOrCreate_events (db : DB) (addr : Address) :
    (resolveOrCreate db addr).2 = [Event.snapshot] ∨
    (resolveOrCreate db addr).2 = [Event.snapshot, Event.createAccount addr] := by
  by_cases hex : db.Exist addr = false <;> simp [resolveOrCreate, hex]

/-- When the target is absent StaticCall resolution creates it. -/
theorem resolveOrCreate_events_absent (db : DB) (addr : Address)
    (h : db.Exist addr = false) :
    (resolveOrCreate db addr).2 = [Event.snapshot, Event.createAccount addr] := by
  simp [resolveOrCreate, h]

/-- Call past its guards, with the no-op case excluded, reduces to the
shared call body on the resolved target. -/
theorem Call_run (env : Env) (caller : ContractRef) (addr : Address)
    (input : Option (List Nat)) (gas value : Nat) (db : DB)
    (hd : ¬ env.depth > callCreateDepthMax)
    (hf : db.CanTransfer caller.address value = true)
    (hnoop : ¬ (addr ∉ env.precompiledAtlantis ∧ env.isHardfork2 = true ∧ value = 0)) :
    Call env caller addr input gas value db =
      Call.callBody env caller addr input gas value db
        (resolveOrCreate db addr).1 (resolveOrCreate db addr).2 := by
  have hn2 : ¬ (addr ∉ (if env.isHardfork2 then env.precompiledAtlantis
      else env.precompiledPreAtlantis) ∧ env.isHardfork2 = true ∧ value = 0) := by
    rintro ⟨hm, h2, h3⟩
    rw [h2] at hm
    exact hnoop ⟨by simpa using hm, h2, h3⟩
  by_cases hex : db.Exist addr = false
  · simp only [Call]
    rw [if_neg hd, if_neg (by simp [hf]), if_pos hex, if_neg hn2]
    simp [resolveOrCreate, hex]
  · simp only [Call]
    rw [if_neg hd, if_neg (by simp [hf]), if_neg hex]
    simp [resolveOrCreate, hex]

/-- CallCode past its guards reduces to vmFinish of the mutating run on
the caller-identity Frame; no transfer is performed. -/
theorem CallCode_run (env : Env) (caller : ContractRef) (addr : Address)
    (input : Option (List Nat)) (gas value : Nat) (db : DB)
    (hd : ¬ env.depth > callCreateDepthMax)
    (hf : db.CanTransfer caller.address value = true) :
    CallCode env caller addr input gas value db =
      vmFinish db
        (env.vmRun ⟨caller.address, caller.address, value, gas, some addr,
          db.GetCodeHash addr, db.GetCode addr, false⟩ input false db)
        [Event.snapshot,
         Event.vmRunEv ⟨caller.address, caller.address, value, gas, some addr,
           db.GetCodeHash addr, db.GetCode addr, false⟩ input false] := by
  simp only [CallCode]
  rw [if_neg hd, if_neg (by simp [hf])]

/-- DelegateCall past its depth guard reduces to vmFinish of the
mutating run on the delegate Frame. -/
theorem DelegateCall_run (env : Env) (caller : ContractRef) (addr : Address)
    (input : Option (List Nat)) (gas : Nat) (db : DB)
    (hd : ¬ env.depth > callCreateDepthMax) :
    DelegateCall env caller addr input gas db =
      vmFinish db
        (env.vmRun ⟨caller.address, caller.address, caller.value, gas, some addr,
          (resolveOrCreate db caller.address).1.GetCodeHash addr,
          (resolveOrCreate db caller.address).1.GetCode addr, true⟩ input false
          (resolveOrCreate db caller.address).1)
        ((resolveOrCreate db caller.address).2 ++
         [Event.vmRunEv ⟨caller.address, caller.address, caller.value, gas, some addr,
            (resolveOrCreate db caller.address).1.GetCodeHash addr,
            (resolveOrCreate db caller.address).1.GetCode addr, true⟩ input false]) := by
  by_cases hex : db.Exist caller.address = false <;>
    simp [DelegateCall, resolveOrCreate, hd, hex]

/-- C8: For every one of the five entry points, if the current depth
exceeds 1024 the call returns the depth-exceeded error, returns the full
gas to the caller via ReturnGas, takes no snapshot and mutates no state
(the result record is exactly the guard record: original database, no
Frame, the single ReturnGas event); and for the value-carrying variants
Call and Create, if the caller cannot cover the requested value the call
likewise returns gas, mutates nothing, and reports an insufficient-funds
error carrying the requested and available amounts. -/
theorem guards_depth_funds (env : Env) (caller : ContractRef) (addr : Address)
    (input : Option (List Nat)) (codeArg : List Nat) (gas value : Nat) (db : DB) :
    (env.depth > callCreateDepthMax →
      Call env caller addr input gas value db =
        ⟨none, some Err.callCreateDepth, db, none, [Event.returnGas gas]⟩ ∧
      CallCode env caller addr input gas value db =
        ⟨none, some Err.callCreateDepth, db, none, [Event.returnGas gas]⟩ ∧
      DelegateCall env caller addr input gas db =
        ⟨none, some Err.callCreateDepth, db, none, [Event.returnGas gas]⟩ ∧
      StaticCall env caller addr input gas db =
        ⟨none, some Err.callCreateDepth, db, none, [Event.returnGas gas]⟩ ∧
      Create env caller codeArg gas value db =
        ⟨none, 0, some Err.callCreateDepth, db, none, [Event.returnGas gas]⟩) ∧
    (¬ env.depth > callCreateDepthMax →
     db.CanTransfer caller.address value = false →
      Call env caller addr input gas value db =
        ⟨none, some (Err.valueTransfer value (db.GetBalance caller.address)),
         db, none, [Event.returnGas gas]⟩ ∧
      Create env caller codeArg gas value db =
        ⟨none, 0, some (Err.valueTransfer value (db.GetBalance caller.address)),
         db, none, [Event.returnGas gas]⟩) := by
  constructor
  · intro h
    refine ⟨?_, ?_, ?_, ?_, ?_⟩ <;>
      simp [Call, CallCode, DelegateCall, StaticCall, Create, h]
  · intro h1 h2
    constructor <;> simp [Call, Create, h1, h2]

/-- Witness for guards_depth_funds: depth 2000 rejects a StaticCall, and
a 500-value Call from a balance of 100 is rejected for funds. -/
theorem guards_depth_funds_witness :
    envDeepW.depth > callCreateDepthMax ∧
    dbW.CanTransfer callerW.address 500 = false ∧
    StaticCall envDeepW callerW 2 none 7 dbW =
      ⟨none, some Err.callCreateDepth, dbW, none, [Event.returnGas 7]⟩ ∧
    Create envOkW callerW [] 7 500 dbW =
      ⟨none, 0, some (Err.valueTransfer 500 (dbW.GetBalance callerW.address)),
       dbW, none, [Event.returnGas 7]⟩ :=
  ⟨by decide, by decide,
   ((guards_depth_funds envDeepW callerW 2 none [] 7 500 dbW).1 (by decide)).2.2.2.1,
   ((guards_depth_funds envOkW callerW 2 none [] 7 500 dbW).2 (by decide) (by decide)).2⟩

/-- C5: For every Create invocation (past the depth and funds guards)
whose derived address holds an account with a nonce different from the
starting nonce, or with a code hash that is neither the zero hash nor
the empty-code hash, the result is ErrContractAddressCollision, the
caller's balance is unchanged, and the whole event trace is the single
nonce increment — in particular no value transfer is performed. -/
theorem create_collision_check (env : Env) (caller : ContractRef)
    (code : List Nat) (gas value : Nat) (db : DB)
    (hd : ¬ env.depth > callCreateDepthMax)
    (hf : db.CanTransfer caller.address value = true)
    (hcol : db.GetNonce (createAddress caller.address (db.GetNonce caller.address)) ≠
              StartingNonce ∨
            (db.GetCodeHash (createAddress caller.address (db.GetNonce caller.address)) ≠
               Hash.zero ∧
             db.GetCodeHash (createAddress caller.address (db.GetNonce caller.address)) ≠
               emptyCodeHash)) :
    (Create env caller code gas value db).err = some Err.contractAddressCollision ∧
    (Create env caller code gas value db).db.GetBalance caller.address =
      db.GetBalance caller.address ∧
    (Create env caller code gas value db).events =
      [Event.setNonce caller.address (db.GetNonce caller.address + 1)] := by
  rw [Create_collision_eq env caller code gas value db hd hf hcol]
  exact ⟨rfl, DB.getBalance_setNonce db caller.address caller.address _, rfl⟩

/-- Witness for create_collision_check: the derived address 3 holds an
account with nonce 7 ≠ starting nonce 0. -/
theorem create_collision_check_witness :
    (¬ envOkW.depth > callCreateDepthMax) ∧
    dbColW.CanTransfer callerW.address 4 = true ∧
    dbColW.GetNonce (createAddress callerW.address (dbColW.GetNonce callerW.address)) ≠
      StartingNonce ∧
    (Create envOkW callerW [] 9 4 dbColW).err = some Err.contractAddressCollision ∧
    (Create envOkW callerW [] 9 4 dbColW).db.GetBalance callerW.address =
      dbColW.GetBalance callerW.address :=
  ⟨by decide, by decide, by decide,
   (create_collision_check envOkW callerW [] 9 4 dbColW (by decide) (by decide)
     (Or.inl (by decide))).1,
   (create_collision_check envOkW callerW [] 9 4 dbColW (by decide) (by decide)
     (Or.inl (by decide))).2.1⟩

/-- C10: When Create fails with ErrContractAddressCollision, remaining
gas is not returned to the caller (no ReturnGas event, unlike the depth
and funds guards), no snapshot is taken, and the caller's nonce remains
incremented by one. -/
theorem create_collision_no_returngas (env : Env) (caller : ContractRef)
    (code : List Nat) (gas value : Nat) (db : DB)
    (hd : ¬ env.depth > callCreateDepthMax)
    (hf : db.CanTransfer caller.address value = true)
    (hcol : db.GetNonce (createAddress caller.address (db.GetNonce caller.address)) ≠
              StartingNonce ∨
            (db.GetCodeHash (createAddress caller.address (db.GetNonce caller.address)) ≠
               Hash.zero ∧
             db.GetCodeHash (createAddress caller.address (db.GetNonce caller.address)) ≠
               emptyCodeHash)) :
    (Create env caller code gas value db).err = some Err.contractAddressCollision ∧
    (∀ g2, Event.returnGas g2 ∉ (Create env caller code gas value db).events) ∧
    Event.snapshot ∉ (Create env caller code gas value db).events ∧
    (Create env caller code gas value db).db.GetNonce caller.address =
      db.GetNonce caller.address + 1 := by
  rw [Create_collision_eq env caller code gas value db hd hf hcol]
  refine ⟨rfl, ?_, ?_, DB.getNonce_setNonce_same db caller.address _⟩
  · intro g2
    simp
  · simp

/-- Witness for create_collision_no_returngas at the occupied derived
address 3 of dbColW. -/
theorem create_collision_no_returngas_witness :
    (¬ envOkW.depth > callCreateDepthMax) ∧
    (Create envOkW callerW [] 9 4 dbColW).db.GetNonce callerW.address =
      dbColW.GetNonce callerW.address + 1 :=
  ⟨by decide,
   (create_collision_no_returngas envOkW callerW [] 9 4 dbColW (by decide) (by decide)
     (Or.inl (by decide))).2.2.2⟩

/-- C2: For every Call whose target does not exist in the database, if
additionally the value is zero, the target is not in the active
(hardfork-2) precompiled set, and hardfork 2 is active, the call is a
no-op: nil output, nil error, full gas returned via ReturnGas, no
account created and no state mutated (result record is exactly the
snapshot-then-ReturnGas record); in every other non-existent-target
case the target account is created. -/
theorem call_absent_target (env : Env) (caller : ContractRef) (addr : Address)
    (input : Option (List Nat)) (gas value : Nat) (db : DB)
    (hd : ¬ env.depth > callCreateDepthMax)
    (hf : db.CanTransfer caller.address value = true)
    (hex : db.Exist addr = false) :
    (addr ∉ env.precompiledAtlantis → env.isHardfork2 = true → value = 0 →
      Call env caller addr input gas value db =
        ⟨none, none, db, none, [Event.snapshot, Event.returnGas gas]⟩) ∧
    (¬ (addr ∉ env.precompiledAtlantis ∧ env.isHardfork2 = true ∧ value = 0) →
      Event.createAccount addr ∈ (Call env caller addr input gas value db).events) := by
  constructor
  · intro h1 h2 h3
    have hc : addr ∉ (if env.isHardfork2 then env.precompiledAtlantis
        else env.precompiledPreAtlantis) ∧ env.isHardfork2 = true ∧ value = 0 :=
      ⟨by simpa [h2] using h1, h2, h3⟩
    simp only [Call]
    rw [if_neg hd, if_neg (by simp [hf]), if_pos hex, if_pos hc]
  · intro hn
    rw [Call_run env caller addr input gas value db hd hf hn]
    simp only [Call.callBody]
    apply vmFinish_events_mono
    rw [resolveOrCreate_events_absent db addr hex]
    simp

/-- Witness for call_absent_target: absent target 2, zero value, empty
precompile set, hardfork 2 active — the call is discarded. -/
theorem call_absent_target_witness :
    (¬ envNoopW.depth > callCreateDepthMax) ∧
    dbW.Exist 2 = false ∧
    Call envNoopW callerW 2 none 10 0 dbW =
      ⟨none, none, dbW, none, [Event.snapshot, Event.returnGas 10]⟩ :=
  ⟨by decide, by decide,
   (call_absent_target envNoopW callerW 2 none 10 0 dbW (by decide) (by decide)
     (by decide)).1 (by decide) rfl rfl⟩

/-- C9: Every StaticCall that passes the depth guard resolves or
creates the target account (creating it when absent), performs exactly
one balance addition at dispatcher level — a zero-amount addition on the
target (the touch) — and invokes the interpreter on a Frame whose value
is zero with the read-only flag set to true. -/
theorem staticcall_touch_readonly (env : Env) (caller : ContractRef)
    (addr : Address) (input : Option (List Nat)) (gas : Nat) (db : DB)
    (hd : ¬ env.depth > callCreateDepthMax) :
    (db.Exist addr = false →
      Event.createAccount addr ∈ (StaticCall env caller addr input gas db).events) ∧
    (StaticCall env caller addr input gas db).events.count
      (Event.addBalance addr 0) = 1 ∧
    (∀ a amt, Event.addBalance a amt ∈ (StaticCall env caller addr input gas db).events →
      a = addr ∧ amt = 0) ∧
    (∃ c, c.value = 0 ∧
      Event.vmRunEv c input true ∈ (StaticCall env caller addr input gas db).events) ∧
    (∀ c i ro, Event.vmRunEv c i ro ∈ (StaticCall env caller addr input gas db).events →
      ro = true ∧ c.value = 0) := by
  rw [StaticCall_run env caller addr input gas db hd]
  refine ⟨?_, ?_, ?_, ?_, ?_⟩
  · intro hex
    apply vmFinish_events_mono
    rw [resolveOrCreate_events_absent db addr hex]
    simp
  · rw [vmFinish_count _ _ _ _ (by simp)]
    rcases resolveOrCreate_events db addr with h | h <;> rw [h] <;>
      simp [List.count_append, List.count_cons, List.count_nil]
  · intro a amt hmem
    rcases vmFinish_mem _ _ _ _ hmem with h | h
    · rcases resolveOrCreate_events db addr with h2 | h2 <;> rw [h2] at h <;>
        simp at h <;> exact h
    · simp at h
  · refine ⟨staticContract caller addr gas db, rfl, ?_⟩
    apply vmFinish_events_mono
    simp
  · intro c i ro hmem
    rcases vmFinish_mem _ _ _ _ hmem with h | h
    · rcases resolveOrCreate_events db addr with h2 | h2 <;> rw [h2] at h <;>
        simp at h <;> exact ⟨h.2.2, by rw [h.1]; rfl⟩
    · simp at h

/-- Witness for staticcall_touch_readonly: target 2 absent in dbW. -/
theorem staticcall_touch_readonly_witness :
    (¬ envOkW.depth > callCreateDepthMax) ∧
    (StaticCall envOkW callerW 2 none 10 dbW).events.count
      (Event.addBalance 2 0) = 1 :=
  ⟨by decide,
   (staticcall_touch_readonly envOkW callerW 2 none 10 dbW (by decide)).2.1⟩

/-- C3: For each of the four call variants, when the interpreter
returns an error other than the explicit revert signal, state is
reverted to the snapshot taken by that call (the pre-call database) and
all remaining Frame gas is consumed; when it returns the revert signal,
state is reverted but the remaining gas is kept and the returned output
bytes are preserved. The revert event is recorded in both cases. -/
theorem call_variants_error_paths (env : Env) (caller : ContractRef)
    (addr : Address) (input : Option (List Nat)) (gas value : Nat) (db : DB)
    (r : Option (List Nat)) (e : Err) (g : Nat) (db2 : DB)
    (hd : ¬ env.depth > callCreateDepthMax)
    (hf : db.CanTransfer caller.address value = true)
    (hnoop : ¬ (addr ∉ env.precompiledAtlantis ∧ env.isHardfork2 = true ∧ value = 0))
    (hvm : env.vmRun = fun _ _ _ _ => VmOut.mk r (some e) g db2) :
    ((Call env caller addr input gas value db).db = db ∧
     (e ≠ Err.revert → (Call env caller addr input gas value db).frameGas = some 0) ∧
     (e = Err.revert → (Call env caller addr input gas value db).frameGas = some g ∧
       (Call env caller addr input gas value db).ret = r) ∧
     Event.revertToSnapshot ∈ (Call env caller addr input gas value db).events) ∧
    ((CallCode env caller addr input gas value db).db = db ∧
     (e ≠ Err.revert → (CallCode env caller addr input gas value db).frameGas = some 0) ∧
     (e = Err.revert → (CallCode env caller addr input gas value db).frameGas = some g ∧
       (CallCode env caller addr input gas value db).ret = r) ∧
     Event.revertToSnapshot ∈ (CallCode env caller addr input gas value db).events) ∧
    ((DelegateCall env caller addr input gas db).db = db ∧
     (e ≠ Err.revert → (DelegateCall env caller addr input gas db).frameGas = some 0) ∧
     (e = Err.revert → (DelegateCall env caller addr input gas db).frameGas = some g ∧
       (DelegateCall env caller addr input gas db).ret = r) ∧
     Event.revertToSnapshot ∈ (DelegateCall env caller addr input gas db).events) ∧
    ((StaticCall env caller addr input gas db).db = db ∧
     (e ≠ Err.revert → (StaticCall env caller addr input gas db).frameGas = some 0) ∧
     (e = Err.revert → (StaticCall env caller addr input gas db).frameGas = some g ∧
       (StaticCall env caller addr input gas db).ret = r) ∧
     Event.revertToSnapshot ∈ (StaticCall env caller addr input gas db).events) := by
  refine ⟨?_, ?_, ?_, ?_⟩
  · rw [Call_run env caller addr input gas value db hd hf hnoop]
    simp only [Call.callBody, hvm]
    exact vmFinish_spec _ _ _ e rfl
  · rw [CallCode_run env caller addr input gas value db hd hf, hvm]
    exact vmFinish_spec _ _ _ e rfl
  · rw [DelegateCall_run env caller addr input gas db hd, hvm]
    exact vmFinish_spec _ _ _ e rfl
  · rw [StaticCall_run env caller addr input gas db hd, hvm]
    exact vmFinish_spec _ _ _ e rfl

/-- Witness for call_variants_error_paths: a generic interpreter error
consumes all Frame gas in Call and restores the StaticCall database. -/
theorem call_variants_error_paths_witness :
    (¬ envErrW.depth > callCreateDepthMax) ∧
    dbW.CanTransfer callerW.address 5 = true ∧
    (Call envErrW callerW 2 none 10 5 dbW).frameGas = some 0 ∧
    (StaticCall envErrW callerW 2 none 10 dbW).db = dbW :=
  ⟨by decide, by decide,
   (call_variants_error_paths envErrW callerW 2 none 10 5 dbW (some [7])
     (Err.vmOther 0) 5 dbW (by decide) (by decide) (by decide) rfl).1.2.1 (by decide),
   (call_variants_error_paths envErrW callerW 2 none 10 5 dbW (some [7])
     (Err.vmOther 0) 5 dbW (by decide) (by decide) (by decide) rfl).2.2.2.1⟩

/-- The caller's nonce right after the Create set-up phase is its
original nonce plus one. -/
theorem getNonce_createSetupDB (env : Env) (caller : ContractRef)
    (value : Nat) (db : DB) :
    (createSetupDB env caller value db).GetNonce caller.address =
      db.GetNonce caller.address + 1 := by
  have hne : caller.address ≠ createAddress caller.address (db.GetNonce caller.address) :=
    Ne.symm (createAddress_ne _ _)
  cases hh : env.isHardfork2 <;>
    simp [createSetupDB, hh, DB.getNonce_addBalance, DB.getNonce_subBalance,
      DB.getNonce_setNonce_ne, DB.getNonce_createAccount_ne, hne,
      DB.getNonce_setNonce_same]

/-- C1: In Create (past guards and collision check), revert-to-snapshot
happens exactly when the returned code size was exceeded (under
hardfork 2), or when an error is pending after the code-store step and
either Homestead — the spec's nonce-adjusting hard fork, the rule set's
second boolean query — is active or the error is not the
code-storage-out-of-gas error; and when the size was exceeded with no
other error, the reported error is ErrMaxCodeSizeExceeded, decided
after the revert decision. -/
theorem create_revert_decision (env : Env) (caller : ContractRef) (code : List Nat)
    (gas value : Nat) (db : DB) (r : Option (List Nat)) (e : Option Err)
    (g : Nat) (db2 : DB) (exceeded : Bool) (err1 : Option Err)
    (hd : ¬ env.depth > callCreateDepthMax)
    (hf : db.CanTransfer caller.address value = true)
    (hnc : db.GetNonce (createAddress caller.address (db.GetNonce caller.address)) =
             StartingNonce ∧
           (db.GetCodeHash (createAddress caller.address (db.GetNonce caller.address)) =
              Hash.zero ∨
            db.GetCodeHash (createAddress caller.address (db.GetNonce caller.address)) =
              emptyCodeHash))
    (hvm : env.vmRun = fun _ _ _ _ => VmOut.mk r e g db2)
    (hexc : exceeded = (decide (retLen r > maxCodeSize) && env.isHardfork2))
    (herr1 : err1 = if e = none ∧ exceeded = false then
                      (if retLen r * CreateDataGas ≤ g then none
                       else some Err.codeStoreOutOfGas)
                    else e) :
    (Event.revertToSnapshot ∈ (Create env caller code gas value db).events ↔
      (exceeded = true ∨
       (err1 ≠ none ∧ (env.isHomestead = true ∨ err1 ≠ some Err.codeStoreOutOfGas)))) ∧
    (exceeded = true → err1 = none →
      (Create env caller code gas value db).err = some Err.maxCodeSizeExceeded) := by
  subst hexc herr1
  rw [Create_vmconst env caller code gas value db r e g db2 hd hf hnc hvm]
  have hnm := revert_not_mem_createSetupEvents env caller code gas value db
  cases e with
  | none =>
    by_cases hx : (decide (retLen r > maxCodeSize) && env.isHardfork2) = true
    · rw [createFinish_exceeded env _ _ r g db2 _ hx]
      constructor
      · simp [hx]
      · intro _ _
        rfl
    · have hx2 : (decide (retLen r > maxCodeSize) && env.isHardfork2) = false := by
        simpa using hx
      by_cases hg : retLen r * CreateDataGas ≤ g
      · rw [createFinish_store_ok env _ _ r g db2 _ hx2 hg]
        simp [hx2, hg, hnm]
      · rw [createFinish_store_oog env _ _ r g db2 _ hx2 hg]
        cases hh : env.isHomestead <;> simp [hx2, hg, hh, hnm]
  | some x =>
    by_cases hrev : x = Err.revert
    · subst hrev
      rw [createFinish_revert env _ _ r g db2 _]
      simp [hnm]
    · by_cases hc : (decide (retLen r > maxCodeSize) && env.isHardfork2) = true ∨
          env.isHomestead = true ∨ x ≠ Err.codeStoreOutOfGas
      · rw [createFinish_err_rev env _ _ r x g db2 _ hrev hc]
        rcases hc with hc | hc | hc <;> simp [hc, hrev, hnm]
      · push_neg at hc
        obtain ⟨hx, hh, hxo⟩ := hc
        subst hxo
        have hx2 : (decide (retLen r > maxCodeSize) && env.isHardfork2) = false := by
          simpa using hx
        have hh2 : env.isHomestead = false := by
          simpa using hh
        rw [createFinish_oog_keep env _ _ r g db2 _ hx2 hh2]
        constructor
        · constructor
          · intro hmem
            exact absurd hmem hnm
          · rintro (hcase | ⟨h1, hcase | hcase⟩)
            · rw [hx2] at hcase
              simp at hcase
            · rw [hh2] at hcase
              simp at hcase
            · simp at hcase
        · intro hcase _
          rw [hx2] at hcase
          simp at hcase

/-- Witness for create_revert_decision: successful run with 3 bytes of
code but zero gas left makes CodeStoreOutOfGas, and Homestead forces
the revert. -/
theorem create_revert_decision_witness :
    (¬ envOogW.depth > callCreateDepthMax) ∧
    Event.revertToSnapshot ∈ (Create envOogW callerW [] 10 0 dbW).events :=
  ⟨by decide,
   (create_revert_decision envOogW callerW [] 10 0 dbW (some [1, 2, 3]) none 0 dbW
     false (some Err.codeStoreOutOfGas)
     (by decide) (by decide) ⟨by decide, Or.inl (by decide)⟩ rfl (by decide)
     (by decide)).1.mpr
     (Or.inr ⟨by decide, Or.inl (by decide)⟩)⟩

/-- C4: For every Create invocation that passes the depth and funds
guards, with an interpreter that does not itself change the caller's
nonce, the derived contract address is the pure function createAddress
of the caller's address and the nonce before the increment (returned
whenever the collision check passes), and the caller's nonce afterwards
equals nonce-before + 1 on every path — the increment precedes the
snapshot, so a revert does not undo it. -/
theorem create_address_nonce (env : Env) (caller : ContractRef) (code : List Nat)
    (gas value : Nat) (db : DB)
    (hd : ¬ env.depth > callCreateDepthMax)
    (hf : db.CanTransfer caller.address value = true)
    (hpres : ∀ c i ro d, ((env.vmRun c i ro d).db).GetNonce caller.address =
      d.GetNonce caller.address) :
    ((Create env caller code gas value db).err ≠ some Err.contractAddressCollision →
      (Create env caller code gas value db).address =
        createAddress caller.address (db.GetNonce caller.address)) ∧
    (Create env caller code gas value db).db.GetNonce caller.address =
      db.GetNonce caller.address + 1 := by
  by_cases hcol : db.GetNonce (createAddress caller.address (db.GetNonce caller.address)) ≠
      StartingNonce ∨
      (db.GetCodeHash (createAddress caller.address (db.GetNonce caller.address)) ≠
         Hash.zero ∧
       db.GetCodeHash (createAddress caller.address (db.GetNonce caller.address)) ≠
         emptyCodeHash)
  · rw [Create_collision_eq env caller code gas value db hd hf hcol]
    exact ⟨fun h => absurd rfl h, DB.getNonce_setNonce_same db caller.address _⟩
  · push_neg at hcol
    have hnc : db.GetNonce (createAddress caller.address (db.GetNonce caller.address)) =
        StartingNonce ∧
        (db.GetCodeHash (createAddress caller.address (db.GetNonce caller.address)) =
           Hash.zero ∨
         db.GetCodeHash (createAddress caller.address (db.GetNonce caller.address)) =
           emptyCodeHash) := by
      refine ⟨hcol.1, ?_⟩
      by_cases hz : db.GetCodeHash (createAddress caller.address
          (db.GetNonce caller.address)) = Hash.zero
      · exact Or.inl hz
      · exact Or.inr (hcol.2 hz)
    rw [Create_run env caller code gas value db hd hf hnc]
    have hout : ((env.vmRun (createInitContract caller code gas value db) none false
        (createSetupDB env caller value db)).db).GetNonce caller.address =
        db.GetNonce caller.address + 1 := by
      rw [hpres]
      exact getNonce_createSetupDB env caller value db
    constructor
    · intro _
      exact createFinish_address env _ _ _ _
    · rcases createFinish_db_cases env
          (db.SetNonce caller.address (db.GetNonce caller.address + 1))
          (createAddress caller.address (db.GetNonce caller.address))
          (env.vmRun (createInitContract caller code gas value db) none false
            (createSetupDB env caller value db))
          (createSetupEvents env caller code gas value db) with h | h | h <;> rw [h]
      · exact DB.getNonce_setNonce_same db caller.address _
      · exact hout
      · rw [DB.getNonce_setCode]
        exact hout

/-- Witness for create_address_nonce with a database-identity
interpreter: the caller's nonce increments from 0 to 1. -/
theorem create_address_nonce_witness :
    (¬ envIdW.depth > callCreateDepthMax) ∧
    (Create envIdW callerW [] 10 0 dbW).db.GetNonce callerW.address =
      dbW.GetNonce callerW.address + 1 :=
  ⟨by decide,
   (create_address_nonce envIdW callerW [] 10 0 dbW (by decide) (by decide)
     (fun _ _ _ _ => rfl)).2⟩

/-- C6: In Create (past guards and collision check), when the
interpreter returns no error and the returned code does not exceed the
maximum code size under hardfork 2, a gas charge of returned-length
times CreateDataGas is attempted on the Frame: if affordable the
returned bytes are persisted as the new account's code (and the charge
deducted), otherwise the error becomes CodeStoreOutOfGas and no code is
persisted. -/
theorem create_code_store_charge (env : Env) (caller : ContractRef)
    (code : List Nat) (gas value : Nat) (db : DB) (r : Option (List Nat))
    (g : Nat) (db2 : DB)
    (hd : ¬ env.depth > callCreateDepthMax)
    (hf : db.CanTransfer caller.address value = true)
    (hnc : db.GetNonce (createAddress caller.address (db.GetNonce caller.address)) =
             StartingNonce ∧
           (db.GetCodeHash (createAddress caller.address (db.GetNonce caller.address)) =
              Hash.zero ∨
            db.GetCodeHash (createAddress caller.address (db.GetNonce caller.address)) =
              emptyCodeHash))
    (hvm : env.vmRun = fun _ _ _ _ => VmOut.mk r none g db2)
    (hsize : ¬ (retLen r > maxCodeSize ∧ env.isHardfork2 = true)) :
    (retLen r * CreateDataGas ≤ g →
      (Create env caller code gas value db).err = none ∧
      (Create env caller code gas value db).ret = r ∧
      Event.setCode (createAddress caller.address (db.GetNonce caller.address))
        (r.getD []) ∈ (Create env caller code gas value db).events ∧
      (Create env caller code gas value db).db.GetCode
        (createAddress caller.address (db.GetNonce caller.address)) = r.getD [] ∧
      (Create env caller code gas value db).frameGas =
        some (g - retLen r * CreateDataGas)) ∧
    (¬ retLen r * CreateDataGas ≤ g →
      (Create env caller code gas value db).err = some Err.codeStoreOutOfGas ∧
      (∀ a c2, Event.setCode a c2 ∉ (Create env caller code gas value db).events)) := by
  have hx2 : (decide (retLen r > maxCodeSize) && env.isHardfork2) = false := by
    cases hb : env.isHardfork2
    · simp
    · simp only [Bool.and_true, decide_eq_false_iff_not]
      exact fun hgt => hsize ⟨hgt, hb⟩
  rw [Create_vmconst env caller code gas value db r none g db2 hd hf hnc hvm]
  have hsc := setCode_not_mem_createSetupEvents env caller code gas value db
  constructor
  · intro hg
    rw [createFinish_store_ok env _ _ r g db2 _ hx2 hg]
    refine ⟨rfl, rfl, ?_, DB.getCode_setCode_same db2 _ _, rfl⟩
    simp
  · intro hg
    rw [createFinish_store_oog env _ _ r g db2 _ hx2 hg]
    by_cases hh : env.isHomestead = true
    · rw [if_pos hh]
      refine ⟨rfl, ?_⟩
      intro a c2 h
      rcases List.mem_append.1 h with h | h
      · exact hsc a c2 h
      · simp at h
    · rw [if_neg hh]
      exact ⟨rfl, fun a c2 => hsc a c2⟩

/-- Witness for create_code_store_charge: 3 bytes of returned code,
600 gas charged out of 1000, code persisted at the derived address 3. -/
theorem create_code_store_charge_witness :
    (¬ envStoreW.depth > callCreateDepthMax) ∧
    (Create envStoreW callerW [] 10 0 dbW).db.GetCode
      (createAddress callerW.address 0) = [1, 2, 3] ∧
    (Create envStoreW callerW [] 10 0 dbW).frameGas = some 400 :=
  ⟨by decide,
   ((create_code_store_charge envStoreW callerW [] 10 0 dbW (some [1, 2, 3]) 1000 dbW
      (by decide) (by decide) ⟨by decide, Or.inl (by decide)⟩ rfl
      (by decide)).1 (by decide)).2.2.2.1,
   ((create_code_store_charge envStoreW callerW [] 10 0 dbW (some [1, 2, 3]) 1000 dbW
      (by decide) (by decide) ⟨by decide, Or.inl (by decide)⟩ rfl
      (by decide)).1 (by decide)).2.2.2.2⟩

/-- C7 counterexample: a Create whose interpreter fails with a generic
(non-revert) error returns nil output but DOES return the derived
address (3, not the zero address 0) — the claim's "no address is
returned" fails on the post-execution error paths. -/
theorem create_error_output_counterexample :
    (Create envErrW callerW [] 10 0 dbW).err = some (Err.vmOther 0) ∧
    some (Err.vmOther 0) ≠ some Err.revert ∧
    (Create envErrW callerW [] 10 0 dbW).ret = none ∧
    (Create envErrW callerW [] 10 0 dbW).address = createAddress callerW.address 0 ∧
    createAddress callerW.address 0 ≠ 0 := by decide

/-- C7 amended: for every Create past the guards and collision check,
an error other than the revert signal yields nil output while the
derived address is still returned; the revert signal returns the
captured output, likewise with the derived address. (Guard and
collision failures return the zero address.) -/
theorem create_error_output (env : Env) (caller : ContractRef) (code : List Nat)
    (gas value : Nat) (db : DB) (r : Option (List Nat)) (e : Option Err)
    (g : Nat) (db2 : DB)
    (hd : ¬ env.depth > callCreateDepthMax)
    (hf : db.CanTransfer caller.address value = true)
    (hnc : db.GetNonce (createAddress caller.address (db.GetNonce caller.address)) =
             StartingNonce ∧
           (db.GetCodeHash (createAddress caller.address (db.GetNonce caller.address)) =
              Hash.zero ∨
            db.GetCodeHash (createAddress caller.address (db.GetNonce caller.address)) =
              emptyCodeHash))
    (hvm : env.vmRun = fun _ _ _ _ => VmOut.mk r e g db2) :
    ((Create env caller code gas value db).err ≠ none →
     (Create env caller code gas value db).err ≠ some Err.revert →
      (Create env caller code gas value db).ret = none ∧
      (Create env caller code gas value db).address =
        createAddress caller.address (db.GetNonce caller.address)) ∧
    ((Create env caller code gas value db).err = some Err.revert →
      (Create env caller code gas value db).ret = r ∧
      (Create env caller code gas value db).address =
        createAddress caller.address (db.GetNonce caller.address)) := by
  rw [Create_vmconst env caller code gas value db r e g db2 hd hf hnc hvm]
  have h1 := createFinish_ret_spec env
    (db.SetNonce caller.address (db.GetNonce caller.address + 1))
    (createAddress caller.address (db.GetNonce caller.address))
    ⟨r, e, g, db2⟩ (createSetupEvents env caller code gas value db)
  have h2 := createFinish_address env
    (db.SetNonce caller.address (db.GetNonce caller.address + 1))
    (createAddress caller.address (db.GetNonce caller.address))
    (⟨r, e, g, db2⟩ : VmOut) (createSetupEvents env caller code gas value db)
  exact ⟨fun ha hb => ⟨h1.1 ha hb, h2⟩, fun ha => ⟨h1.2 ha, h2⟩⟩

/-- Witness for create_error_output: the revert signal returns the
captured output bytes. -/
theorem create_error_output_witness :
    (¬ envRevW.depth > callCreateDepthMax) ∧
    (Create envRevW callerW [] 10 0 dbW).ret = some [9] :=
  ⟨by decide,
   ((create_error_output envRevW callerW [] 10 0 dbW (some [9]) (some Err.revert) 5 dbW
     (by decide) (by decide) ⟨by decide, Or.inl (by decide)⟩ rfl).2 (by decide)).1⟩

end Webchain
